import Mathlib

/-!
Verification of the IDWA-RL record-linkage core against its specification.

The development shallowly embeds the Python source:

* `src/recordlinker/models/mpi.py` — `Patient._scrub_empty`, the
  `Patient.record` property (getter and setter) and `BlockingKey.to_value`
  are translated directly.
* `recordlinker.models.pii` (PIIRecord, `field_iter`) and
  `recordlinker.linkage.link` (`generate_hash_str`,
  `score_linkage_vs_truth`, `read_linkage_config`, `write_linkage_config`)
  are not part of the source tree; they are modelled from the
  specification, as marked in the doc comments of the relevant
  definitions.

Python JSON-like values are embedded as the inductive `JVal`; Python
strings manipulated character-wise are embedded as `List Char`.
-/

namespace RecordLinker

/-- A Python JSON-like value: `None`, booleans, numbers, strings, lists and
dicts (a dict is an insertion-ordered association list). -/
inductive JVal where
  | null : JVal
  | bool (b : Bool) : JVal
  | num (n : Int) : JVal
  | str (s : String) : JVal
  | arr (xs : List JVal) : JVal
  | obj (kvs : List (String × JVal)) : JVal

/-- `is_empty` from `Patient._scrub_empty`: `value is None or value == []
or value == {}`. -/
def is_empty (v : JVal) : Bool :=
  match v with
  | .null => true
  | .arr [] => true
  | .obj [] => true
  | _ => false

mutual

/-- `Patient._scrub_empty` from `models/mpi.py`: for a dict, keep the
entries whose value is not empty and recurse into the kept values; for a
list, keep the non-empty elements and recurse into them; anything else is
returned unchanged.  The emptiness test runs on each child *before* the
recursive scrub of that child, exactly as in the Python comprehensions. -/
def scrub_empty : JVal → JVal
  | .null => .null
  | .bool b => .bool b
  | .num n => .num n
  | .str s => .str s
  | .arr xs => .arr (scrubArr xs)
  | .obj kvs => .obj (scrubObj kvs)

/-- The list comprehension of `_scrub_empty`:
`[cls._scrub_empty(v) for v in data if not is_empty(v)]`. -/
def scrubArr : List JVal → List JVal
  | [] => []
  | x :: xs => if is_empty x then scrubArr xs else scrub_empty x :: scrubArr xs

/-- The dict comprehension of `_scrub_empty`:
`{k: cls._scrub_empty(v) for k, v in data.items() if not is_empty(v)}`. -/
def scrubObj : List (String × JVal) → List (String × JVal)
  | [] => []
  | (k, v) :: kvs =>
      if is_empty v then scrubObj kvs else (k, scrub_empty v) :: scrubObj kvs

end

mutual

/-- True when the value holds a `null`, an empty list or an empty dict
anywhere in it, the value itself included. -/
def hasEmptyLeaf : JVal → Bool
  | .null => true
  | .bool _ => false
  | .num _ => false
  | .str _ => false
  | .arr xs => xs.isEmpty || hasEmptyLeafArr xs
  | .obj kvs => kvs.isEmpty || hasEmptyLeafObj kvs

/-- Any element of the list holds an empty leaf. -/
def hasEmptyLeafArr : List JVal → Bool
  | [] => false
  | x :: xs => hasEmptyLeaf x || hasEmptyLeafArr xs

/-- Any value of the association list holds an empty leaf. -/
def hasEmptyLeafObj : List (String × JVal) → Bool
  | [] => false
  | (_, v) :: kvs => hasEmptyLeaf v || hasEmptyLeafObj kvs

end

/-! ## PII records

`recordlinker.models.pii` is not in the source tree; the record shape,
its wellformedness invariants and `field_iter` below are modelled from
the specification (sections 3 and 4.1). -/

/-- A Python string viewed character-wise, so that slicing operations
(`x[:4]`, `x[-4:]`, `x[:5]`) are plain list operations. -/
abbrev Str := List Char

/-- A character Python's `str.strip` removes (the ASCII whitespace that
can occur in the data). -/
def isWS (c : Char) : Bool :=
  c = ' ' || c = '\t' || c = '\n' || c = '\r'

/-- A non-empty string with no leading and no trailing whitespace —
the shape of every stored string field.  Modelled from the spec:
"string fields are trimmed; absent fields are null, not empty strings". -/
def trimmedStr (v : Str) : Bool :=
  match v.head?, v.getLast? with
  | some a, some b => !isWS a && !isWS b
  | _, _ => false

/-- Python `x[:4]`. -/
def first4 (v : Str) : Str := v.take 4

/-- Python `x[-4:]` — the last `min 4 (length v)` characters. -/
def last4 (v : Str) : Str := (v.reverse.take 4).reverse

/-- Python `x[:5]` (ZIP prefix). -/
def first5 (v : Str) : Str := v.take 5

/-- Sex, normalized.  Modelled from the spec: "sex (enum: MALE, FEMALE,
UNKNOWN)". -/
inductive Sex where
  | MALE | FEMALE | UNKNOWN
  deriving DecidableEq

/-- The single-letter code of a sex value, as emitted by `field_iter`. -/
def sexLetter : Sex → Str
  | .MALE => ['M']
  | .FEMALE => ['F']
  | .UNKNOWN => ['U']

/-- One name entry.  Modelled from the spec: each Name has `family`
(string) and `given[]` (strings); absent fields are null. -/
structure Name where
  family : Option Str
  given : List Str
  deriving DecidableEq

/-- One address entry.  Modelled from the spec: each Address has
`line[]`, `city`, `state`, `postal_code`, `country`. -/
structure Address where
  line : List Str
  city : Option Str
  state : Option Str
  postalCode : Option Str
  country : Option Str
  deriving DecidableEq

/-- One telecom entry.  Modelled from the spec: `telecom[]` with `value`. -/
structure Telecom where
  value : Option Str
  deriving DecidableEq

/-- The canonical PII container.  Modelled from the spec (section 3);
`birthDate` holds the already-parsed ISO "YYYY-MM-DD" form, since the
claims under proof never exercise the date parser itself. -/
structure PIIRecord where
  externalId : Option Str := none
  birthDate : Option Str := none
  sex : Option Sex := none
  mrn : Option Str := none
  name : List Name := []
  address : List Address := []
  telecom : List Telecom := []
  deriving DecidableEq

/-- The feature identifiers addressable through `field_iter`. -/
inductive Feature where
  | BIRTHDATE | MRN | SEX | FIRST_NAME | LAST_NAME
  | ADDRESS | CITY | STATE | ZIPCODE
  deriving DecidableEq

/-- `PIIRecord.field_iter`.  Modelled from the spec (section 4.1):
BIRTHDATE yields the ISO string or nothing; MRN the mrn or nothing; SEX
the single letter; FIRST_NAME each given name across every Name, in
order; LAST_NAME each family name; ADDRESS the first line of each
Address; CITY and STATE one per Address; ZIPCODE the first 5 characters
of each postal code. -/
def field_iter (r : PIIRecord) : Feature → List Str
  | .BIRTHDATE => r.birthDate.toList
  | .MRN => r.mrn.toList
  | .SEX => (r.sex.map sexLetter).toList
  | .FIRST_NAME => r.name.flatMap Name.given
  | .LAST_NAME => r.name.filterMap Name.family
  | .ADDRESS => r.address.filterMap (fun a => a.line.head?)
  | .CITY => r.address.filterMap Address.city
  | .STATE => r.address.filterMap Address.state
  | .ZIPCODE => (r.address.filterMap Address.postalCode).map first5

/-- The spec's string invariants on a stored record: every string field
is trimmed and non-empty (absent fields are `none`, never the empty
string).  Modelled from the spec (section 3). -/
def wfRecord (r : PIIRecord) : Bool :=
  r.externalId.all trimmedStr &&
  r.birthDate.all trimmedStr &&
  r.mrn.all trimmedStr &&
  r.name.all (fun n => n.family.all trimmedStr && n.given.all trimmedStr) &&
  r.address.all (fun a =>
    a.line.all trimmedStr && a.city.all trimmedStr &&
    a.state.all trimmedStr && a.postalCode.all trimmedStr &&
    a.country.all trimmedStr) &&
  r.telecom.all (fun t => t.value.all trimmedStr)

/-! ## Blocking keys — `BlockingKey` from `models/mpi.py` -/

/-- `BLOCKING_VALUE_MAX_LENGTH` from `models/mpi.py`. -/
def BLOCKING_VALUE_MAX_LENGTH : Nat := 20

/-- The blocking-key kinds of `models/mpi.py`, with their wire ids. -/
inductive BlockingKey where
  | BIRTHDATE | MRN | SEX | ZIP | FIRST_NAME | LAST_NAME
  deriving DecidableEq

/-- The frozen numeric id of each blocking-key kind. -/
def BlockingKey.id : BlockingKey → Nat
  | .BIRTHDATE => 1
  | .MRN => 2
  | .SEX => 3
  | .ZIP => 4
  | .FIRST_NAME => 5
  | .LAST_NAME => 6

/-- The derived values collected by `BlockingKey.to_value` before they
enter the `vals` set: the branch on the key kind, each transformation
applied to `record.field_iter(...)`. -/
def rawList (k : BlockingKey) (r : PIIRecord) : List Str :=
  match k with
  | .BIRTHDATE => field_iter r .BIRTHDATE
  | .MRN => (field_iter r .MRN).map last4
  | .SEX => field_iter r .SEX
  | .ZIP => field_iter r .ZIPCODE
  | .FIRST_NAME => (field_iter r .FIRST_NAME).map first4
  | .LAST_NAME => (field_iter r .LAST_NAME).map first4

/-- The `vals` set built by `BlockingKey.to_value`: the derived values
collected into a set (a `Finset`, matching the Python `set`). -/
def rawValues (k : BlockingKey) (r : PIIRecord) : Finset Str :=
  (rawList k r).toFinset

/-- `BlockingKey.to_value` from `models/mpi.py`: build the value set for
the key, then raise a `RuntimeError` if any value is longer than
`BLOCKING_VALUE_MAX_LENGTH`, else return the set.  The `any` runs over
the collected values (same truth value over the list as over the set it
populates). -/
def to_value (k : BlockingKey) (r : PIIRecord) : Except String (Finset Str) :=
  if (rawList k r).any (fun x => BLOCKING_VALUE_MAX_LENGTH < x.length) then
    .error "BlockingKey has a value longer than BLOCKING_VALUE_MAX_LENGTH"
  else
    .ok (rawValues k r)

/-! ## Serialization of a `PIIRecord` and the `Patient.record` property -/

/-- An optional string field as JSON: `null` when absent. -/
def jOptStr : Option Str → JVal
  | none => .null
  | some v => .str (String.mk v)

/-- JSON dump of one Name. -/
def dumpName (n : Name) : JVal :=
  .obj [("family", jOptStr n.family),
        ("given", .arr (n.given.map (fun g => .str (String.mk g))))]

/-- JSON dump of one Address. -/
def dumpAddress (a : Address) : JVal :=
  .obj [("line", .arr (a.line.map (fun l => .str (String.mk l)))),
        ("city", jOptStr a.city),
        ("state", jOptStr a.state),
        ("postal_code", jOptStr a.postalCode),
        ("country", jOptStr a.country)]

/-- JSON dump of one Telecom. -/
def dumpTelecom (t : Telecom) : JVal :=
  .obj [("value", jOptStr t.value)]

/-- JSON dump of the sex field. -/
def dumpSex : Option Sex → JVal
  | none => .null
  | some s => .str (String.mk (sexLetter s))

/-- `value.model_dump_json()` then `json.loads(...)` in the
`Patient.record` setter.  Modelled from the spec: every field of the
record appears, absent scalars as `null`, the collections as lists. -/
def dumpPII (r : PIIRecord) : JVal :=
  .obj [("external_id", jOptStr r.externalId),
        ("birth_date", jOptStr r.birthDate),
        ("sex", dumpSex r.sex),
        ("mrn", jOptStr r.mrn),
        ("name", .arr (r.name.map dumpName)),
        ("address", .arr (r.address.map dumpAddress)),
        ("telecom", .arr (r.telecom.map dumpTelecom))]

/-- The `Patient.record` setter from `models/mpi.py`: serialize the
record to JSON data, then store `_scrub_empty` of it in `Patient.data`. -/
def recordSet (r : PIIRecord) : JVal :=
  scrub_empty (dumpPII r)

/-- Python truthiness of a JSON-like value, as tested by
`if self.data:` in the `Patient.record` getter. -/
def truthy : JVal → Bool
  | .null => false
  | .bool b => b
  | .num n => n != 0
  | .str s => s != ""
  | .arr xs => !xs.isEmpty
  | .obj kvs => !kvs.isEmpty

/-- Python `str.strip` over the whitespace in `isWS`. -/
def pyStrip (v : Str) : Str :=
  ((v.dropWhile isWS).reverse.dropWhile isWS).reverse

/-- A parsed string field: trimmed, and `none` when nothing remains.
Modelled from the spec: "string fields are trimmed; absent fields are
null, not empty strings". -/
def toField (s : String) : Option Str :=
  match pyStrip s.toList with
  | [] => none
  | v => some v

/-- Read an optional string member of a JSON object; a missing key or an
explicit `null` is `none`, any non-string value is an InvalidInput
failure.  Modelled from the spec (section 4.1). -/
def getOptStr (kvs : List (String × JVal)) (k : String) :
    Except String (Option Str) :=
  match kvs.lookup k with
  | none => .ok none
  | some .null => .ok none
  | some (.str s) => .ok (toField s)
  | some _ => .error "InvalidInput"

/-- Parse the `external_id` member: any scalar is coerced to its string
form.  Modelled from the spec (section 4.1). -/
def getExternalId (kvs : List (String × JVal)) : Except String (Option Str) :=
  match kvs.lookup "external_id" with
  | none => .ok none
  | some .null => .ok none
  | some (.str s) => .ok (toField s)
  | some (.num n) => .ok (some (toString n).toList)
  | some _ => .error "InvalidInput"

/-- Ten characters shaped like an ISO `YYYY-MM-DD` date. -/
def isIsoDate (v : Str) : Bool :=
  match v with
  | [y1, y2, y3, y4, d1, m1, m2, d2, a1, a2] =>
      y1.isDigit && y2.isDigit && y3.isDigit && y4.isDigit &&
      d1 = '-' && m1.isDigit && m2.isDigit && d2 = '-' &&
      a1.isDigit && a2.isDigit
  | _ => false

/-- Parse the birth date, aliased `birth_date`/`birthDate`.  Modelled
from the spec: the real parser accepts several human formats and
normalizes them to ISO, failing with InvalidInput on anything
unrecognized; the model keeps the canonical ISO form and rejects the
rest, since no claim under proof exercises the other formats. -/
def getBirthDate (kvs : List (String × JVal)) : Except String (Option Str) :=
  match (kvs.lookup "birth_date").or (kvs.lookup "birthDate") with
  | none => .ok none
  | some .null => .ok none
  | some (.str s) =>
      match toField s with
      | none => .ok none
      | some v => if isIsoDate v then .ok (some v) else .error "InvalidInput"
  | some _ => .error "InvalidInput"

/-- Parse the sex member into the enum.  Modelled from the spec:
"accepts M, F, U, Male, Female, Unknown, case-insensitive"; missing is
null, malformed is InvalidInput. -/
def getSex (kvs : List (String × JVal)) : Except String (Option Sex) :=
  match kvs.lookup "sex" with
  | none => .ok none
  | some .null => .ok none
  | some (.str s) =>
      match String.mk (s.toList.map Char.toLower) with
      | "m" => .ok (some .MALE)
      | "male" => .ok (some .MALE)
      | "f" => .ok (some .FEMALE)
      | "female" => .ok (some .FEMALE)
      | "u" => .ok (some .UNKNOWN)
      | "unknown" => .ok (some .UNKNOWN)
      | _ => .error "InvalidInput"
  | some _ => .error "InvalidInput"

/-- Parse a JSON array of strings into trimmed non-empty values. -/
def getStrList (j : JVal) : Except String (List Str) :=
  match j with
  | .arr xs => xs.mapM (fun x =>
      match x with
      | .str s =>
          match toField s with
          | some v => Except.ok v
          | none => .error "InvalidInput"
      | _ => .error "InvalidInput")
  | _ => .error "InvalidInput"

/-- Parse one Name object.  Modelled from the spec (section 3). -/
def parseName (j : JVal) : Except String Name :=
  match j with
  | .obj kvs => do
      let family ← getOptStr kvs "family"
      let given ←
        match kvs.lookup "given" with
        | none => .ok []
        | some .null => .ok []
        | some g => getStrList g
      .ok { family := family, given := given }
  | _ => .error "InvalidInput"

/-- Parse one Address object, with the `postal_code`/`postalCode`
aliasing.  Modelled from the spec (section 3). -/
def parseAddress (j : JVal) : Except String Address :=
  match j with
  | .obj kvs => do
      let line ←
        match kvs.lookup "line" with
        | none => .ok []
        | some .null => .ok []
        | some l => getStrList l
      let city ← getOptStr kvs "city"
      let state ← getOptStr kvs "state"
      let postal ←
        match (kvs.lookup "postal_code").or (kvs.lookup "postalCode") with
        | none => .ok none
        | some .null => .ok none
        | some (.str s) => .ok (toField s)
        | some _ => .error "InvalidInput"
      let country ← getOptStr kvs "country"
      .ok { line := line, city := city, state := state,
            postalCode := postal, country := country }
  | _ => .error "InvalidInput"

/-- Parse one Telecom object.  Modelled from the spec (section 3). -/
def parseTelecom (j : JVal) : Except String Telecom :=
  match j with
  | .obj kvs => do
      let value ← getOptStr kvs "value"
      .ok { value := value }
  | _ => .error "InvalidInput"

/-- The `PIIRecord(**data)` constructor.  Modelled from the spec
(section 4.1): key aliasing, scalar coercion of `external_id`, date and
sex validation, and the per-collection parsers above. -/
def parsePII (j : JVal) : Except String PIIRecord :=
  match j with
  | .obj kvs => do
      let externalId ← getExternalId kvs
      let birthDate ← getBirthDate kvs
      let sex ← getSex kvs
      let mrn ← getOptStr kvs "mrn"
      let name ←
        match kvs.lookup "name" with
        | none => .ok []
        | some .null => .ok []
        | some (.arr xs) => xs.mapM parseName
        | some _ => .error "InvalidInput"
      let address ←
        match kvs.lookup "address" with
        | none => .ok []
        | some .null => .ok []
        | some (.arr xs) => xs.mapM parseAddress
        | some _ => .error "InvalidInput"
      let telecom ←
        match kvs.lookup "telecom" with
        | none => .ok []
        | some .null => .ok []
        | some (.arr xs) => xs.mapM parseTelecom
        | some _ => .error "InvalidInput"
      .ok { externalId := externalId, birthDate := birthDate, sex := sex,
            mrn := mrn, name := name, address := address, telecom := telecom }
  | _ => .error "InvalidInput"

/-- The `Patient.record` getter from `models/mpi.py`: when `self.data`
is truthy, construct `PIIRecord(**self.data)`; otherwise fall through
and return `None`.  The stored column is `Option JVal` because the
attribute may be unset. -/
def recordGet (data : Option JVal) : Option (Except String PIIRecord) :=
  match data with
  | none => none
  | some d => if truthy d then some (parsePII d) else none

/-! ## Algorithm configuration files

`recordlinker.linkage.link`'s `read_linkage_config` and
`write_linkage_config` are not in the source tree; the definitions below
are modelled from the specification (section 4.7) and the loader error
contract (section 7). -/

/-- A matcher or rule identifier as it appears in a pass: either an
in-memory function reference (carrying its dotted path) or the portable
`func:<dotted.path>` string form. -/
inductive FuncId where
  | ref (path : String) : FuncId
  | strId (s : String) : FuncId
  deriving DecidableEq

/-- One pass of an algorithm description: the feature-to-matcher map,
the blocking specs (kept as raw JSON, as the loader does), the matching
rule and the optional `cluster_ratio` and `kwargs` members.  Modelled
from the spec (section 4.7). -/
structure APass where
  funcs : List (String × FuncId)
  blocks : JVal
  matching_rule : FuncId
  clusterRat : Option JVal
  kwargs : Option JVal

/-- An algorithm description: an ordered list of passes. -/
abbrev Algorithm := List APass

/-- Serialize a matcher identifier: an in-memory function reference is
emitted in `func:<dotted.path>` string form, a string identifier is
emitted as-is.  Modelled from the spec: "matcher identifiers emitted in
func:<dotted.path> string form even when provided as function
references in memory". -/
def writeFuncId : FuncId → JVal
  | .ref p => .str ("func:" ++ p)
  | .strId s => .str s

/-- Serialize one pass to its JSON object; the optional members are
written only when present. -/
def writePass (p : APass) : JVal :=
  .obj ([("funcs", .obj (p.funcs.map (fun kv => (kv.1, writeFuncId kv.2)))),
         ("blocks", p.blocks),
         ("matching_rule", writeFuncId p.matching_rule)] ++
        (match p.clusterRat with
         | none => []
         | some c => [("cluster_ratio", c)]) ++
        (match p.kwargs with
         | none => []
         | some k => [("kwargs", k)]))

/-- Serialize a whole algorithm: the JSON array of its passes. -/
def writeAlg (a : Algorithm) : JVal :=
  .arr (a.map writePass)

/-- Parse a matcher identifier from JSON: every identifier read back
from a file is a string. -/
def parseFuncId (j : JVal) : Option FuncId :=
  match j with
  | .str s => some (.strId s)
  | _ => none

/-- Parse the `funcs` member: each value must be a string identifier. -/
def parseFuncs : List (String × JVal) → Option (List (String × FuncId))
  | [] => some []
  | (k, v) :: rest =>
      match parseFuncId v, parseFuncs rest with
      | some f, some fs => some ((k, f) :: fs)
      | _, _ => none

/-- Parse one pass object. -/
def parsePass (j : JVal) : Option APass :=
  match j with
  | .obj kvs => do
      let funcsJ ← kvs.lookup "funcs"
      let funcs ←
        match funcsJ with
        | .obj fkvs => parseFuncs fkvs
        | _ => none
      let blocks ← kvs.lookup "blocks"
      let mr ← kvs.lookup "matching_rule" >>= parseFuncId
      some { funcs := funcs, blocks := blocks, matching_rule := mr,
             clusterRat := kvs.lookup "cluster_ratio",
             kwargs := kvs.lookup "kwargs" }
  | _ => none

/-- Parse a whole algorithm from its JSON array. -/
def parseAlg (j : JVal) : Option Algorithm :=
  match j with
  | .arr xs => xs.mapM parsePass
  | _ => none

/-- Normalization performed by a write/read round trip on one
identifier: an in-memory reference comes back as its
`func:<dotted.path>` string. -/
def normFuncId : FuncId → FuncId
  | .ref p => .strId ("func:" ++ p)
  | .strId s => .strId s

/-- The round-trip normalization of one pass. -/
def normPass (p : APass) : APass :=
  { p with funcs := p.funcs.map (fun kv => (kv.1, normFuncId kv.2)),
           matching_rule := normFuncId p.matching_rule }

/-- The round-trip normalization of an algorithm. -/
def normAlg (a : Algorithm) : Algorithm :=
  a.map normPass

/-- Every identifier of the algorithm is already in string form. -/
def allStrIds (a : Algorithm) : Bool :=
  a.all (fun p =>
    (p.funcs.all (fun kv =>
      match kv.2 with
      | .strId _ => true
      | .ref _ => false)) &&
    (match p.matching_rule with
     | .strId _ => true
     | .ref _ => false))

/-- What a config path can hold: nothing (no file), a file that is not
valid JSON, or a file holding a parsed JSON value. -/
inductive FileContent where
  | invalid : FileContent
  | valid (j : JVal) : FileContent

/-- A file system, as far as the config loader sees one. -/
def ConfigFS : Type := String → Option FileContent

/-- The loader's typed failures.  Modelled from the spec (section 4.7):
missing file is FileNotFound, malformed JSON is InvalidJSON, an
unparseable algorithm structure is InvalidConfig. -/
inductive ConfigErr where
  | FileNotFound | InvalidJSON | InvalidConfig
  deriving DecidableEq

/-- `read_linkage_config`.  Modelled from the spec: a missing path fails
with FileNotFound, a file that is not valid JSON fails with InvalidJSON,
otherwise the algorithm is parsed from the JSON value. -/
def read_linkage_config (fs : ConfigFS) (path : String) :
    Except ConfigErr Algorithm :=
  match fs path with
  | none => .error .FileNotFound
  | some .invalid => .error .InvalidJSON
  | some (.valid j) =>
      match parseAlg j with
      | some a => .ok a
      | none => .error .InvalidConfig

/-- `write_linkage_config`.  Modelled from the spec: serialize the
algorithm (function references becoming `func:` strings) and write the
JSON to the given path. -/
def write_linkage_config (a : Algorithm) (path : String) (fs : ConfigFS) :
    ConfigFS :=
  fun p => if p = path then some (.valid (writeAlg a)) else fs p

/-! ## SHA-256 and `generate_hash_str`

`generate_hash_str` lives in `recordlinker.linkage.link`, which is not
in the source tree.  SHA-256 itself is embedded below (32-bit words as
`Nat` reduced mod `2 ^ 32`); the implementation reproduces the digests
the unit tests of the repository pin down. -/

/-- Reduce modulo `2 ^ 32`. -/
def m32 (x : Nat) : Nat := x % 4294967296

/-- Right rotation of a 32-bit word. -/
def rotr (n x : Nat) : Nat :=
  (x >>> n) + ((x % (2 ^ n)) * 2 ^ (32 - n))

/-- The SHA-256 `Ch` function. -/
def ch (x y z : Nat) : Nat := (x &&& y) ^^^ ((x ^^^ 4294967295) &&& z)

/-- The SHA-256 `Maj` function. -/
def maj (x y z : Nat) : Nat := (x &&& y) ^^^ (x &&& z) ^^^ (y &&& z)

/-- Big sigma 0. -/
def bsig0 (x : Nat) : Nat := rotr 2 x ^^^ rotr 13 x ^^^ rotr 22 x

/-- Big sigma 1. -/
def bsig1 (x : Nat) : Nat := rotr 6 x ^^^ rotr 11 x ^^^ rotr 25 x

/-- Small sigma 0. -/
def ssig0 (x : Nat) : Nat := rotr 7 x ^^^ rotr 18 x ^^^ (x >>> 3)

/-- Small sigma 1. -/
def ssig1 (x : Nat) : Nat := rotr 17 x ^^^ rotr 19 x ^^^ (x >>> 10)

/-- The 64 SHA-256 round constants (FIPS 180-4, in decimal). -/
def K : List Nat :=
  [1116352408, 1899447441, 3049323471, 3921009573, 961987163,
   1508970993, 2453635748, 2870763221, 3624381080, 310598401,
   607225278, 1426881987, 1925078388, 2162078206, 2614888103,
   3248222580, 3835390401, 4022224774, 264347078, 604807628,
   770255983, 1249150122, 1555081692, 1996064986, 2554220882,
   2821834349, 2952996808, 3210313671, 3336571891, 3584528711,
   113926993, 338241895, 666307205, 773529912, 1294757372,
   1396182291, 1695183700, 1986661051, 2177026350, 2456956037,
   2730485921, 2820302411, 3259730800, 3345764771, 3516065817,
   3600352804, 4094571909, 275423344, 430227734, 506948616,
   659060556, 883997877, 958139571, 1322822218, 1537002063,
   1747873779, 1955562222, 2024104815, 2227730452, 2361852424,
   2428436474, 2756734187, 3204031479, 3329325298]

/-- The SHA-256 initial hash state (FIPS 180-4, in decimal). -/
def H0 : List Nat :=
  [1779033703, 3144134277, 1013904242,
   2773480762, 1359893119, 2600822924,
   528734635, 1541459225]

/-- Extend a 16-word message block by the given number of schedule
words. -/
def extendW (w : List Nat) : Nat → List Nat
  | 0 => w
  | n + 1 =>
      let L := w.length
      extendW (w ++ [m32 (ssig1 (w.getD (L - 2) 0) + w.getD (L - 7) 0 +
                          ssig0 (w.getD (L - 15) 0) + w.getD (L - 16) 0)]) n

/-- One compression round on the state `[a, b, c, d, e, f, g, h]`. -/
def roundStep (st : List Nat) (kw : Nat × Nat) : List Nat :=
  match st with
  | [a, b, c, d, e, f, g, h] =>
      let t1 := m32 (h + bsig1 e + ch e f g + kw.1 + kw.2)
      let t2 := m32 (bsig0 a + maj a b c)
      [m32 (t1 + t2), a, b, c, m32 (d + t1), e, f, g]
  | _ => st

/-- Compress one 16-word block into the running hash state. -/
def compress (h : List Nat) (block : List Nat) : List Nat :=
  let w := extendW block 48
  let st := (K.zip w).foldl roundStep h
  (h.zip st).map (fun p => m32 (p.1 + p.2))

/-- The 8-byte big-endian bit length of an `L`-byte message. -/
def lenBytes (L : Nat) : List Nat :=
  [((8 * L) >>> 56) % 256, ((8 * L) >>> 48) % 256, ((8 * L) >>> 40) % 256,
   ((8 * L) >>> 32) % 256, ((8 * L) >>> 24) % 256, ((8 * L) >>> 16) % 256,
   ((8 * L) >>> 8) % 256, (8 * L) % 256]

/-- SHA-256 padding: `0x80`, zeros to 56 mod 64, then the bit length. -/
def padMsg (msg : List Nat) : List Nat :=
  let L := msg.length
  msg ++ [128] ++ List.replicate ((119 - L % 64) % 64) 0 ++ lenBytes L

/-- Pack big-endian bytes into 32-bit words. -/
def toWords : List Nat → List Nat
  | b0 :: b1 :: b2 :: b3 :: rest =>
      (b0 * 16777216 + b1 * 65536 + b2 * 256 + b3) :: toWords rest
  | _ => []

/-- Split a word list into 16-word blocks (structural on a fuel that the
wrapper sets to the list length, which bounds the number of blocks). -/
def chunk16Go : List Nat → Nat → List (List Nat)
  | _, 0 => []
  | [], _ + 1 => []
  | w :: ws, fuel + 1 =>
      (w :: ws).take 16 :: chunk16Go ((w :: ws).drop 16) fuel

/-- Split a word list into 16-word blocks. -/
def chunk16 (ws : List Nat) : List (List Nat) := chunk16Go ws ws.length

/-- The SHA-256 digest of a byte list, as 8 32-bit words. -/
def sha256w (msg : List Nat) : List Nat :=
  (chunk16 (toWords (padMsg msg))).foldl compress H0

/-- Lowercase hexadecimal digits. -/
def hexChars : List Char := "0123456789abcdef".toList

/-- A 32-bit word as 8 lowercase hex characters. -/
def wordHex (w : Nat) : List Char :=
  [hexChars.getD ((w >>> 28) % 16) '0', hexChars.getD ((w >>> 24) % 16) '0',
   hexChars.getD ((w >>> 20) % 16) '0', hexChars.getD ((w >>> 16) % 16) '0',
   hexChars.getD ((w >>> 12) % 16) '0', hexChars.getD ((w >>> 8) % 16) '0',
   hexChars.getD ((w >>> 4) % 16) '0', hexChars.getD (w % 16) '0']

/-- The bytes of an ASCII string (every string the claims touch is
ASCII, where UTF-8 bytes and code points coincide). -/
def strBytes (s : String) : List Nat := s.toList.map Char.toNat

/-- The lowercase-hex SHA-256 digest of a byte list. -/
def hexDigest (msg : List Nat) : String :=
  String.mk ((sha256w msg).flatMap wordHex)

/-- `generate_hash_str` from `recordlinker.linkage.link`.  Modelled from
the spec and pinned by the unit tests `test_generate_hash` in
`tests/unit/test_linkage.py`: the function hashes the identifying value
concatenated with the salt (in that order, with no separator) and
returns the lowercase hex digest.  Both digests asserted by the test
are reproduced by this definition, whereas hashing
`salt + "\n" + value` reproduces neither. -/
def generate_hash_str (value salt : String) : String :=
  hexDigest (strBytes value ++ strBytes salt)

/-! ## Linkage scoring — `score_linkage_vs_truth`

`score_linkage_vs_truth` lives in `recordlinker.linkage.link`, which is
not in the source tree; the definition is modelled from the spec's seed
scenario (section 8, "Score vs truth"): pairwise true/false positives
and negatives over `n` records, with the four statistics rounded to 3
decimals.  Exact rationals stand in for IEEE doubles; none of the
intermediate values under proof sits at a rounding boundary. -/

/-- The match pairs named by a mapping from record id to the set of ids
it was matched with. -/
def pairsOf (d : List (Nat × List Nat)) : List (Nat × Nat) :=
  d.flatMap (fun kv => kv.2.map (fun v => (kv.1, v)))

/-- Round a rational to 3 decimal places. -/
def round3 (q : ℚ) : ℚ :=
  (Int.fdiv (q * 1000 + 1 / 2).num (q * 1000 + 1 / 2).den : ℚ) / 1000

/-- `score_linkage_vs_truth`: sensitivity, specificity, positive
predictive value and F1 over the pairwise confusion counts, each
rounded to 3 decimals.  Modelled from the spec (section 8). -/
def score_linkage_vs_truth (found truth : List (Nat × List Nat)) (n : Nat) :
    ℚ × ℚ × ℚ × ℚ :=
  let fPairs := pairsOf found
  let tPairs := pairsOf truth
  let tp : ℚ := (fPairs.filter (fun p => decide (p ∈ tPairs))).length
  let fp : ℚ := (fPairs.filter (fun p => decide (p ∉ tPairs))).length
  let fneg : ℚ := (tPairs.filter (fun p => decide (p ∉ fPairs))).length
  let total : ℚ := (n * (n - 1) / 2 : Nat)
  let tn : ℚ := total - tp - fp - fneg
  (round3 (tp / (tp + fneg)), round3 (tn / (tn + fp)),
   round3 (tp / (tp + fp)), round3 (2 * tp / (2 * tp + fp + fneg)))

/-! ## Claim theorems -/

/-- C1: the claim reads "the empty-scrubbing operation is idempotent:
for every JSON-like value R, scrub(scrub(R)) equals scrub(R)".  The code
violates it: on `{"a": {"b": None}}` one scrub leaves `{"a": {}}` — the
emptiness of a child is tested before the child is scrubbed, so an
empty dict created by the inner scrub survives — and a second scrub
removes it, giving `{}`. -/
theorem scrub_empty_not_idempotent :
    scrub_empty (JVal.obj [("a", JVal.obj [("b", JVal.null)])]) =
      JVal.obj [("a", JVal.obj [])] ∧
    scrub_empty (scrub_empty (JVal.obj [("a", JVal.obj [("b", JVal.null)])])) =
      JVal.obj [] ∧
    scrub_empty (scrub_empty (JVal.obj [("a", JVal.obj [("b", JVal.null)])])) ≠
      scrub_empty (JVal.obj [("a", JVal.obj [("b", JVal.null)])]) := by
  refine ⟨rfl, rfl, ?_⟩
  intro h
  rw [show scrub_empty (scrub_empty (JVal.obj [("a", JVal.obj [("b", JVal.null)])])) =
        JVal.obj [] from rfl,
      show scrub_empty (JVal.obj [("a", JVal.obj [("b", JVal.null)])]) =
        JVal.obj [("a", JVal.obj [])] from rfl] at h
  simp at h

/-- C2: the claim reads "the stored Patient.data contains no null,
empty-list or empty-map leaves at any depth of nesting".  The code
violates it: a record holding one Name with no family and no given
names serializes to `{"name": [{"family": null, "given": []}]}`, and
the setter's scrub turns the inner object into `{}` but does not remove
it, so the stored data keeps an empty-map leaf. -/
theorem record_setter_keeps_empty_leaf :
    recordSet { name := [{ family := none, given := [] }] } =
      JVal.obj [("name", JVal.arr [JVal.obj []])] ∧
    hasEmptyLeaf (recordSet { name := [{ family := none, given := [] }] }) =
      true :=
  ⟨rfl, rfl⟩

/-- C10: the `Patient.record` getter returns `None` whenever the stored
data is absent or an empty dict (no record construction, no error), and
constructs a `PIIRecord` from the data exactly when the data is
truthy. -/
theorem record_getter_none_on_empty (data : Option JVal) :
    ((data = none ∨ data = some (JVal.obj [])) → recordGet data = none) ∧
    (∀ j, data = some j → truthy j = true →
      recordGet data = some (parsePII j)) := by
  constructor
  · rintro (rfl | rfl) <;> simp [recordGet, truthy]
  · rintro j rfl hj
    simp [recordGet, hj]

/-- Witness for C10 at the absent column, the empty dict and a
non-empty dict. -/
theorem record_getter_none_on_empty_witness :
    recordGet none = none ∧
    recordGet (some (JVal.obj [])) = none ∧
    truthy (JVal.obj [("mrn", JVal.str "123456")]) = true ∧
    recordGet (some (JVal.obj [("mrn", JVal.str "123456")])) =
      some (parsePII (JVal.obj [("mrn", JVal.str "123456")])) :=
  ⟨(record_getter_none_on_empty none).1 (Or.inl rfl),
   (record_getter_none_on_empty (some (JVal.obj []))).1 (Or.inr rfl),
   rfl,
   (record_getter_none_on_empty
      (some (JVal.obj [("mrn", JVal.str "123456")]))).2 _ rfl rfl⟩

/-! ### Helper lemmas on trimmed strings and slices -/

/-- Concrete sample records used in the witnesses. -/
def recMRN : PIIRecord := { mrn := some "123456".toList }

/-- A record whose (malformed) birth-date string exceeds 20 characters. -/
def recLong : PIIRecord :=
  { birthDate := some "1980-01-01T00:00:00.000Z".toList }

/-- A wellformed record with an MRN and one name. -/
def recDoe : PIIRecord :=
  { mrn := some "123456".toList,
    name := [{ family := some "Doe".toList, given := ["John".toList] }] }

lemma all_isWS_false_of_head {l : Str} {a : Char} (h : l.head? = some a)
    (ha : isWS a = false) : l.all isWS = false := by
  cases l with
  | nil => simp at h
  | cons b t =>
      simp only [List.head?_cons, Option.some.injEq] at h
      subst h
      simp [ha]

lemma head_take {l : Str} {n : Nat} : (l.take (n + 1)).head? = l.head? := by
  cases l <;> simp

lemma trimmed_head {v : Str} (hv : trimmedStr v = true) :
    ∃ a, v.head? = some a ∧ isWS a = false := by
  unfold trimmedStr at hv
  split at hv
  · next a b hha hhb =>
      simp only [Bool.and_eq_true, Bool.not_eq_true'] at hv
      exact ⟨a, hha, hv.1⟩
  · exact absurd hv (by simp)

lemma trimmed_last {v : Str} (hv : trimmedStr v = true) :
    ∃ b, v.getLast? = some b ∧ isWS b = false := by
  unfold trimmedStr at hv
  split at hv
  · next a b hha hhb =>
      simp only [Bool.and_eq_true, Bool.not_eq_true'] at hv
      exact ⟨b, hhb, hv.2⟩
  · exact absurd hv (by simp)

lemma take_all_false {l : Str} {a : Char} (n : Nat) (h : l.head? = some a)
    (ha : isWS a = false) : (l.take (n + 1)).all isWS = false :=
  all_isWS_false_of_head (head_take.trans h) ha

lemma first4_all_false {v : Str} (hv : trimmedStr v = true) :
    (first4 v).all isWS = false := by
  obtain ⟨a, ha, haw⟩ := trimmed_head hv
  exact take_all_false 3 ha haw

lemma first5_all_false {v : Str} (hv : trimmedStr v = true) :
    (first5 v).all isWS = false := by
  obtain ⟨a, ha, haw⟩ := trimmed_head hv
  exact take_all_false 4 ha haw

lemma last4_all_false {v : Str} (hv : trimmedStr v = true) :
    (last4 v).all isWS = false := by
  obtain ⟨b, hb, hbw⟩ := trimmed_last hv
  have hrev : v.reverse.head? = some b := by
    rw [List.head?_reverse]
    exact hb
  have h1 : (v.reverse.take 4).all isWS = false := take_all_false 3 hrev hbw
  simpa [last4, List.all_reverse] using h1

lemma trimmed_all_false {v : Str} (hv : trimmedStr v = true) :
    v.all isWS = false := by
  obtain ⟨a, ha, haw⟩ := trimmed_head hv
  exact all_isWS_false_of_head ha haw

lemma first4_len_le (v : Str) : (first4 v).length ≤ 4 := by
  simp [first4]

lemma first5_len_le (v : Str) : (first5 v).length ≤ 5 := by
  simp [first5]

lemma last4_len_le (v : Str) : (last4 v).length ≤ 4 := by
  simp [last4]

/-- Every value collected for a key out of a wellformed record is a
slice keeping either the first or the last character of a trimmed
non-empty string, hence has a non-whitespace character. -/
lemma rawList_not_blank (k : BlockingKey) (r : PIIRecord)
    (hwf : wfRecord r = true) :
    ∀ v ∈ rawList k r, v.all isWS = false := by
  intro v hv
  unfold wfRecord at hwf
  simp only [Bool.and_eq_true] at hwf
  obtain ⟨⟨⟨⟨⟨hext, hbd⟩, hmrn⟩, hname⟩, haddr⟩, htel⟩ := hwf
  cases k with
  | BIRTHDATE =>
      have hv' : v ∈ r.birthDate.toList := hv
      refine trimmed_all_false ?_
      cases hb : r.birthDate with
      | none => rw [hb] at hv'; exact absurd hv' (by simp)
      | some d =>
          rw [hb] at hv'
          simp only [Option.toList_some, List.mem_singleton] at hv'
          subst hv'
          rw [hb] at hbd
          simpa using hbd
  | MRN =>
      have hv' : v ∈ r.mrn.toList.map last4 := hv
      rw [List.mem_map] at hv'
      obtain ⟨x, hx, rfl⟩ := hv'
      refine last4_all_false ?_
      cases hm : r.mrn with
      | none => rw [hm] at hx; exact absurd hx (by simp)
      | some m =>
          rw [hm] at hx
          simp only [Option.toList_some, List.mem_singleton] at hx
          subst hx
          rw [hm] at hmrn
          simpa using hmrn
  | SEX =>
      have hv' : v ∈ (r.sex.map sexLetter).toList := hv
      cases hs : r.sex with
      | none => rw [hs] at hv'; exact absurd hv' (by simp)
      | some s =>
          rw [hs] at hv'
          simp only [Option.map_some', Option.toList_some,
            List.mem_singleton] at hv'
          subst hv'
          cases s <;> decide
  | ZIP =>
      have hv' : v ∈ (r.address.filterMap Address.postalCode).map first5 := hv
      rw [List.mem_map] at hv'
      obtain ⟨x, hx, rfl⟩ := hv'
      rw [List.mem_filterMap] at hx
      obtain ⟨a, hain, hax⟩ := hx
      have ha := List.all_eq_true.1 haddr a hain
      simp only [Bool.and_eq_true] at ha
      refine first5_all_false ?_
      have hpc := ha.1.2
      rw [hax] at hpc
      simpa using hpc
  | FIRST_NAME =>
      have hv' : v ∈ (r.name.flatMap Name.given).map first4 := hv
      rw [List.mem_map] at hv'
      obtain ⟨x, hx, rfl⟩ := hv'
      rw [List.mem_flatMap] at hx
      obtain ⟨n, hnin, hxg⟩ := hx
      have hn := List.all_eq_true.1 hname n hnin
      simp only [Bool.and_eq_true] at hn
      exact first4_all_false (List.all_eq_true.1 hn.2 x hxg)
  | LAST_NAME =>
      have hv' : v ∈ (r.name.filterMap Name.family).map first4 := hv
      rw [List.mem_map] at hv'
      obtain ⟨x, hx, rfl⟩ := hv'
      rw [List.mem_filterMap] at hx
      obtain ⟨n, hnin, hnx⟩ := hx
      have hn := List.all_eq_true.1 hname n hnin
      simp only [Bool.and_eq_true] at hn
      refine first4_all_false ?_
      have hf := hn.1
      rw [hnx] at hf
      simpa using hf

/-- C3: a value set returned by `to_value` only holds strings of length
at most `BLOCKING_VALUE_MAX_LENGTH` (20); when any derived value
exceeds that bound, `to_value` raises instead of returning a set. -/
theorem blocking_values_fit (k : BlockingKey) (r : PIIRecord) :
    (∀ vals, to_value k r = .ok vals →
      ∀ v ∈ vals, v.length ≤ BLOCKING_VALUE_MAX_LENGTH) ∧
    ((∃ x ∈ rawValues k r, BLOCKING_VALUE_MAX_LENGTH < x.length) →
      ∀ vals, to_value k r ≠ .ok vals) := by
  constructor
  · intro vals h v hv
    unfold to_value at h
    split at h
    · simp at h
    · next hc =>
        simp only [Except.ok.injEq] at h
        subst h
        rw [Bool.not_eq_true, List.any_eq_false] at hc
        have hvl : v ∈ rawList k r := by
          simpa [rawValues, List.mem_toFinset] using hv
        have := hc v hvl
        simpa using this
  · rintro ⟨x, hx, hlen⟩ vals h
    unfold to_value at h
    split at h
    · simp at h
    · next hc =>
        rw [Bool.not_eq_true, List.any_eq_false] at hc
        have hxl : x ∈ rawList k r := by
          simpa [rawValues, List.mem_toFinset] using hx
        exact absurd hlen (by simpa using hc x hxl)

/-- Witness for C3: a record whose birth-date string is longer than 20
characters makes `to_value` fail, and an ordinary MRN record passes the
length bound. -/
theorem blocking_values_fit_witness :
    (∃ x ∈ rawValues .BIRTHDATE recLong,
      BLOCKING_VALUE_MAX_LENGTH < x.length) ∧
    (∀ vals, to_value .BIRTHDATE recLong ≠ .ok vals) ∧
    to_value .MRN recMRN = .ok (rawValues .MRN recMRN) ∧
    (∀ v ∈ rawValues .MRN recMRN, v.length ≤ BLOCKING_VALUE_MAX_LENGTH) := by
  have hex : ∃ x ∈ rawValues .BIRTHDATE recLong,
      BLOCKING_VALUE_MAX_LENGTH < x.length := by decide
  have hok : to_value .MRN recMRN = .ok (rawValues .MRN recMRN) := rfl
  exact ⟨hex, (blocking_values_fit .BIRTHDATE recLong).2 hex, hok,
    (blocking_values_fit .MRN recMRN).1 _ hok⟩

/-- C4: over a wellformed record (trimmed, non-empty string fields), no
value returned by `to_value` is empty or whitespace-only (`v.all isWS =
false` rules out both at once, since the empty string satisfies
`all`). -/
theorem blocking_values_not_blank (k : BlockingKey) (r : PIIRecord)
    (hwf : wfRecord r = true) :
    ∀ vals, to_value k r = .ok vals →
      ∀ v ∈ vals, v ≠ [] ∧ v.all isWS = false := by
  intro vals h v hv
  unfold to_value at h
  split at h
  · simp at h
  · simp only [Except.ok.injEq] at h
    subst h
    have hvl : v ∈ rawList k r := by
      simpa [rawValues, List.mem_toFinset] using hv
    have hall := rawList_not_blank k r hwf v hvl
    refine ⟨?_, hall⟩
    intro hnil
    rw [hnil] at hall
    simp at hall

/-- Witness for C4 on a concrete wellformed record. -/
theorem blocking_values_not_blank_witness :
    wfRecord recDoe = true ∧
    to_value .LAST_NAME recDoe = .ok (rawValues .LAST_NAME recDoe) ∧
    (∀ v ∈ rawValues .LAST_NAME recDoe, v ≠ [] ∧ v.all isWS = false) := by
  have hwf : wfRecord recDoe = true := by decide
  exact ⟨hwf, rfl,
    blocking_values_not_blank .LAST_NAME recDoe hwf _ rfl⟩

/-- C5: the MRN key yields the set of last-4-character slices of the
record's MRN values, the FIRST_NAME key the set of first-4-character
slices of every given name across every Name, and the LAST_NAME key the
set of first-4-character slices of every family name — each
de-duplicated, and never an error (the slices fit the length bound). -/
theorem blocking_key_slices (r : PIIRecord) :
    to_value .MRN r = .ok ((r.mrn.toList.map last4).toFinset) ∧
    to_value .FIRST_NAME r =
      .ok (((r.name.flatMap Name.given).map first4).toFinset) ∧
    to_value .LAST_NAME r =
      .ok (((r.name.filterMap Name.family).map first4).toFinset) := by
  have hshort : ∀ (k : BlockingKey), (∀ v ∈ rawList k r, v.length ≤ 4) →
      to_value k r = .ok ((rawList k r).toFinset) := by
    intro k hk
    unfold to_value
    rw [if_neg]
    · rfl
    · rw [Bool.not_eq_true, List.any_eq_false]
      intro x hx
      have := hk x hx
      simp only [decide_eq_true_eq, BLOCKING_VALUE_MAX_LENGTH, not_lt]
      omega
  refine ⟨?_, ?_, ?_⟩
  · refine hshort .MRN ?_
    intro v hv
    have hv' : v ∈ r.mrn.toList.map last4 := hv
    rw [List.mem_map] at hv'
    obtain ⟨x, _, rfl⟩ := hv'
    exact last4_len_le x
  · refine hshort .FIRST_NAME ?_
    intro v hv
    have hv' : v ∈ (r.name.flatMap Name.given).map first4 := hv
    rw [List.mem_map] at hv'
    obtain ⟨x, _, rfl⟩ := hv'
    exact first4_len_le x
  · refine hshort .LAST_NAME ?_
    intro v hv
    have hv' : v ∈ (r.name.filterMap Name.family).map first4 := hv
    rw [List.mem_map] at hv'
    obtain ⟨x, _, rfl⟩ := hv'
    exact first4_len_le x

/-! ### Config round-trip lemmas -/

lemma parseFuncId_write (f : FuncId) :
    parseFuncId (writeFuncId f) = some (normFuncId f) := by
  cases f <;> rfl

lemma parseFuncs_write (fs : List (String × FuncId)) :
    parseFuncs (fs.map (fun kv => (kv.1, writeFuncId kv.2))) =
      some (fs.map (fun kv => (kv.1, normFuncId kv.2))) := by
  induction fs with
  | nil => rfl
  | cons kv rest ih =>
      obtain ⟨k, f⟩ := kv
      simp [parseFuncs, parseFuncId_write, ih]

lemma parsePass_write (p : APass) : parsePass (writePass p) = some (normPass p) := by
  obtain ⟨funcs, blocks, mr, cr, kw⟩ := p
  cases cr <;> cases kw <;>
    simp [writePass, parsePass, parseFuncs_write, parseFuncId_write, normPass,
      List.lookup]

lemma mapM_parsePass (l : List APass) :
    (l.map writePass).mapM parsePass = some (l.map normPass) := by
  induction l with
  | nil => rfl
  | cons p rest ih =>
      rw [List.map_cons, List.mapM_cons, parsePass_write p, ih]
      rfl

lemma parseAlg_write (a : Algorithm) :
    parseAlg (writeAlg a) = some (normAlg a) :=
  mapM_parsePass a

lemma map_normFuncId_id (fs : List (String × FuncId))
    (h : fs.all (fun kv =>
      match kv.2 with
      | .strId _ => true
      | .ref _ => false) = true) :
    fs.map (fun kv => (kv.1, normFuncId kv.2)) = fs := by
  induction fs with
  | nil => rfl
  | cons kv rest ih =>
      rw [List.all_cons, Bool.and_eq_true] at h
      obtain ⟨k, f⟩ := kv
      cases f with
      | ref p => simp at h
      | strId s =>
          rw [List.map_cons, ih h.2]
          rfl

lemma normAlg_of_allStrIds (a : Algorithm) (h : allStrIds a = true) :
    normAlg a = a := by
  unfold allStrIds at h
  rw [List.all_eq_true] at h
  unfold normAlg
  induction a with
  | nil => rfl
  | cons p rest ih =>
      have hp := h p (by simp)
      simp only [Bool.and_eq_true] at hp
      have hmr : normFuncId p.matching_rule = p.matching_rule := by
        cases hm : p.matching_rule with
        | ref q => rw [hm] at hp; simp at hp
        | strId s => rfl
      simp only [List.map_cons]
      rw [ih (fun q hq => h q (by simp [hq]))]
      unfold normPass
      rw [map_normFuncId_id p.funcs hp.1, hmr]

/-- The sample pass whose identifiers are in-memory function
references, mirroring `sample_algo` of `test_algo_write`. -/
def passRef : APass :=
  { funcs := [("first_name",
      .ref "recordlinker.linkage.matchers.feature_match_fuzzy_string")],
    blocks := .arr [.str "MRN4", .str "ADDRESS4"],
    matching_rule := .ref "recordlinker.linkage.matchers.eval_perfect_match",
    clusterRat := none,
    kwargs := none }

/-- The same pass with identifiers already in `func:` string form. -/
def passStr : APass :=
  { funcs := [("first_name",
      .strId "func:recordlinker.linkage.matchers.feature_match_fuzzy_string")],
    blocks := .arr [.str "MRN4", .str "ADDRESS4"],
    matching_rule :=
      .strId "func:recordlinker.linkage.matchers.eval_perfect_match",
    clusterRat := none,
    kwargs := none }

/-- C6 (counterexample): reading back a written config does not return
the original algorithm when it held in-memory function references — the
references come back as `func:` strings, which are a different value. -/
theorem config_roundtrip_not_identity :
    read_linkage_config
        (write_linkage_config [passRef] "algo_test_write.json" (fun _ => none))
        "algo_test_write.json" ≠ .ok [passRef] := by
  have h : read_linkage_config
      (write_linkage_config [passRef] "algo_test_write.json" (fun _ => none))
      "algo_test_write.json" = .ok (normAlg [passRef]) := by
    unfold read_linkage_config write_linkage_config
    rw [if_pos rfl]
    show (match parseAlg (writeAlg [passRef]) with
      | some al => Except.ok al
      | none => Except.error ConfigErr.InvalidConfig) = .ok (normAlg [passRef])
    rw [parseAlg_write]
  rw [h]
  simp [normAlg, normPass, passRef, normFuncId]

/-- C6 (amended): reading back a written config returns the algorithm
with every in-memory function reference replaced by its
`func:<dotted.path>` string form; in particular the round trip is the
identity on algorithms whose identifiers are already strings. -/
theorem config_roundtrip (a : Algorithm) (path : String) (fs : ConfigFS) :
    read_linkage_config (write_linkage_config a path fs) path =
      .ok (normAlg a) ∧
    (allStrIds a = true →
      read_linkage_config (write_linkage_config a path fs) path = .ok a) := by
  have h : read_linkage_config (write_linkage_config a path fs) path =
      .ok (normAlg a) := by
    unfold read_linkage_config write_linkage_config
    rw [if_pos rfl]
    show (match parseAlg (writeAlg a) with
      | some al => Except.ok al
      | none => Except.error ConfigErr.InvalidConfig) = .ok (normAlg a)
    rw [parseAlg_write]
  exact ⟨h, fun hs => by rw [h, normAlg_of_allStrIds a hs]⟩

/-- Witness for C6 on a one-pass algorithm in string form. -/
theorem config_roundtrip_witness :
    allStrIds [passStr] = true ∧
    read_linkage_config
        (write_linkage_config [passStr] "algo_test_write.json" (fun _ => none))
        "algo_test_write.json" = .ok [passStr] := by
  have hs : allStrIds [passStr] = true := by decide
  exact ⟨hs, (config_roundtrip [passStr] "algo_test_write.json"
    (fun _ => none)).2 hs⟩

/-- C7: the config loader fails with FileNotFound when the path holds no
file, fails with InvalidJSON when the file is not valid JSON, and an
erroring load never returns an algorithm. -/
theorem read_config_errors (fs : ConfigFS) (path : String) :
    (fs path = none → read_linkage_config fs path = .error .FileNotFound) ∧
    (fs path = some .invalid →
      read_linkage_config fs path = .error .InvalidJSON) ∧
    (∀ e, read_linkage_config fs path = .error e →
      ∀ a, read_linkage_config fs path ≠ .ok a) := by
  refine ⟨?_, ?_, ?_⟩
  · intro h
    unfold read_linkage_config
    rw [h]
  · intro h
    unfold read_linkage_config
    rw [h]
  · intro e he a ha
    rw [he] at ha
    simp at ha

/-- Witness for C7 at a missing path and at an invalid-JSON file. -/
theorem read_config_errors_witness :
    ((fun _ => none : ConfigFS) "invalid.json" = none) ∧
    read_linkage_config (fun _ => none) "invalid.json" =
      .error .FileNotFound ∧
    ((fun _ => some .invalid : ConfigFS) "not_valid_json_test.json" =
      some .invalid) ∧
    read_linkage_config (fun _ => some .invalid) "not_valid_json_test.json" =
      .error .InvalidJSON :=
  ⟨rfl, (read_config_errors (fun _ => none) "invalid.json").1 rfl, rfl,
   (read_config_errors (fun _ => some .invalid)
     "not_valid_json_test.json").2.1 rfl⟩

/-- C8 (counterexample): `generate_hash_str` does not hash
`salt + "\n" + payload` — that composition yields a different digest on
the documented input than the digest the unit test pins down (and
produces). -/
theorem generate_hash_not_salt_newline_payload :
    generate_hash_str
        "John-Shepard-2153/11/07-1234 Silversun Strip Boston Massachusetts 99999"
        "super-legit-salt" ≠
      hexDigest (strBytes "super-legit-salt" ++ [10] ++
        strBytes
          "John-Shepard-2153/11/07-1234 Silversun Strip Boston Massachusetts 99999") := by
  decide

/-- C8 (amended): `generate_hash_str(p, s)` is the lowercase-hex SHA-256
digest of the payload followed by the salt, concatenated with no
separator; on the documented input it equals the digest of the claim,
and on the second input of the unit test it equals the test's second
digest. -/
theorem generate_hash_value_salt (value salt : String) :
    generate_hash_str value salt = hexDigest (strBytes value ++ strBytes salt) ∧
    generate_hash_str
        "John-Shepard-2153/11/07-1234 Silversun Strip Boston Massachusetts 99999"
        "super-legit-salt" =
      "b124335071679e95341b8133669f6ab475f211f3e19d3cf69e7b6f13b0df45d6" ∧
    generate_hash_str
        "Tali-Zora-Vas-Normandy-2160/05/14-PO Box 1 Rock Rannoch"
        "super-legit-salt" =
      "102818c623290c24069beb721c6eb465d281b3b67ecfb6aef924d14affa117b9" :=
  ⟨rfl, by decide, by decide⟩

/-- C9: on the 12-record example with the given found-match and
true-match maps, `score_linkage_vs_truth` returns sensitivity 1.0,
specificity 0.926, positive predictive value 0.75 and F1 0.857 (the
exact rationals of those 3-decimal values). -/
theorem score_linkage_example :
    score_linkage_vs_truth
      [(1, [5, 11, 12, 13]), (5, [11, 12, 13]), (11, [12, 13]), (12, [13]),
       (23, [24, 31, 32]), (24, [31, 32]), (31, [32])]
      [(1, [5, 11, 12]), (5, [11, 12]), (11, [12]),
       (23, [24, 31, 32]), (24, [31, 32]), (31, [32])] 12 =
      (1, 463 / 500, 3 / 4, 857 / 1000) := by
  have h1 : Int.fdiv 2001 2 = 1000 := by decide
  have h2 : Int.fdiv 50027 54 = 926 := by decide
  have h3 : Int.fdiv 1501 2 = 750 := by decide
  have h4 : Int.fdiv 12007 14 = 857 := by decide
  norm_num [score_linkage_vs_truth, pairsOf, round3, List.flatMap,
    List.filter, h1, h2, h3, h4]

end RecordLinker
